import Mathlib

/-!
# A shallow embedding of `dav-backup` (`src/index.js`)

This file embeds the behaviourally relevant parts of the backup controller in
`src/index.js` as executable Lean definitions, and proves theorems about its
retry/cleanup orchestration, upload acknowledgment handling, remote directory
bootstrapping, retention pruning and backup-filename encoding.

Modelling conventions:
* Asynchronous event handlers (`on('response')`, `on('error')`, `on('exit')`)
  become pure functions from the event payload to the outcome they produce on
  the enclosing promise (resolve / reject-with-data / `process.exit`).
* The environment (remote WebDAV store, external processes, wall clock) is a
  parameter: listing results, delete results and per-attempt outcomes are
  supplied by functions, and the code's reaction to them is what is modelled.
* The recursive generator `backup(backupFn, retriesCount)` counts
  `retriesCount` upward until it reaches `retries`; the embedding recurses
  structurally on the remaining budget `left = retries - retriesCount` while
  passing the attempt index along, which is the same control flow.
* The `daysToKeep` number is modelled as an integer number of days extended
  with `Infinity` (the yargs default); timestamps are integer milliseconds,
  so `moment.duration(daysToKeep, 'days').asMilliseconds()` is the exact
  product `daysToKeep * 86400000`.
* The wall-clock watchdog (`setTimeout(..., TIMEOUT)`) is real-time behaviour
  and is outside the model; `process.exit(code)` is modelled as an outcome
  carrying `code`.
-/

namespace DavBackup

/-- `src/index.js` line 10: global watchdog, milliseconds. -/
def TIMEOUT : Nat := 12 * 60 * 60 * 1000

/-- `src/index.js` line 11: per-request timeout, milliseconds. -/
def REQUEST_TIMEOUT : Nat := 4 * 60 * 60 * 1000

/-- `src/index.js` line 12: fixed delay before each retry, milliseconds. -/
def RETRY_DELAY : Nat := 10 * 1000

/-! ## Upload and producer event handlers -/

/-- Outcome an event handler produces on the enclosing backup promise:
resolve, reject carrying an optional `err.backupFilename`, or `process.exit`. -/
inductive PutOutcome where
  | resolved : PutOutcome
  | rejected : Option String → PutOutcome
  | exitProcess : Nat → PutOutcome
deriving DecidableEq, Repr

/-- `src/index.js` lines 202-211: `putRequestStream.on('response', ...)` of
`backupTar`. Resolves only on status 201; any other status rejects with an
error carrying the generated `backupFilename`. -/
def backupTarResponse (backupFilename : String) (statusCode : Nat) : PutOutcome :=
  if statusCode = 201 then .resolved else .rejected (some backupFilename)

/-- `src/index.js` lines 270-279: the response handler of `backupMysql`,
identical in structure to the one in `backupTar`. -/
def backupMysqlResponse (backupFilename : String) (statusCode : Nat) : PutOutcome :=
  if statusCode = 201 then .resolved else .rejected (some backupFilename)

/-- `src/index.js` lines 332-341: the response handler of `backupMongo`. -/
def backupMongoResponse (backupFilename : String) (statusCode : Nat) : PutOutcome :=
  if statusCode = 201 then .resolved else .rejected (some backupFilename)

/-- `src/index.js` lines 193-200 (same shape at 261-268 and 323-330):
`putRequestStream.on('error', ...)`. A transport error whose `statusCode` is
507 exits the process with code 1; any other transport error rejects the
promise with the raw error, which carries no `backupFilename`. -/
def putErrorHandler (statusCode : Option Nat) : PutOutcome :=
  if statusCode = some 507 then .exitProcess 1 else .rejected none

/-- `src/index.js` line 172 (also 240, 302): `tarProcess.on('error', reject)`.
A spawn failure rejects with the raw error: no `backupFilename` attached. -/
def spawnErrorHandler : PutOutcome := .rejected none

/-- `src/index.js` lines 173-180: `tarProcess.on('exit', ...)`. Exit codes 0
and 1 (warnings only) are ignored; a code above 1 rejects with an error
carrying the generated filename. Returns `none` when the handler does
nothing. -/
def tarExitHandler (backupFilename : String) (code : Int) : Option PutOutcome :=
  if code > 1 then some (.rejected (some backupFilename)) else none

/-- `src/index.js` lines 241-247: `mysqldumpProcess.on('exit', ...)`. Any
truthy (nonzero) code rejects with an error carrying the filename. -/
def mysqlExitHandler (backupFilename : String) (code : Int) : Option PutOutcome :=
  if code ≠ 0 then some (.rejected (some backupFilename)) else none

/-- `src/index.js` lines 303-309: `mongodumpProcess.on('exit', ...)`. -/
def mongoExitHandler (backupFilename : String) (code : Int) : Option PutOutcome :=
  if code ≠ 0 then some (.rejected (some backupFilename)) else none

/-! ## Retry/cleanup orchestrator (`backup`, `src/index.js` lines 102-131) -/

/-- Result of one attempt of `backupFn` as observed by `backup`'s
`try`/`catch`: success, a caught error optionally carrying
`err.backupFilename`, or a `process.exit` from inside the attempt. -/
inductive AttemptResult where
  | success : AttemptResult
  | failure : Option String → AttemptResult
  | fatal : Nat → AttemptResult
deriving DecidableEq, Repr

/-- Result of a `dav.deleteFile` call: fulfilled, or rejected with an error
whose `status` field is as given (`none` models an error with no status). -/
inductive DeleteResult where
  | ok : DeleteResult
  | err : Option Nat → DeleteResult
deriving DecidableEq, Repr

/-- What the cleanup-delete `catch` block prints. -/
inductive Reaction where
  | noWarn : Reaction
  | warnWrongCredentials : Reaction
  | warnError : Reaction
deriving DecidableEq, Repr

/-- `src/index.js` lines 114-120: the `catch` around the cleanup
`dav.deleteFile`. Status 401 warns "Wrong credentials", status 404 is
silently accepted, anything else is logged; nothing escalates. -/
def cleanupReaction : DeleteResult → Reaction
  | .ok => .noWarn
  | .err s =>
      if s = some 401 then .warnWrongCredentials
      else if s = some 404 then .noWarn
      else .warnError

/-- Observable steps taken by the orchestrator: an attempt of the
producer+upload operation (with its index and result), a cleanup delete of a
remote path (with the logged reaction), and a retry delay in milliseconds. -/
inductive Event where
  | attempt : Nat → AttemptResult → Event
  | cleanupDelete : String → Reaction → Event
  | delay : Nat → Event
deriving DecidableEq, Repr

/-- How one call of the `backup` generator ends: it returns normally
(successes and exhausted retries alike), or the process exited inside it. -/
inductive BackupResult where
  | completed : BackupResult
  | fatalExit : Nat → BackupResult
deriving DecidableEq, Repr

/-- `src/index.js` lines 102-131, the recursive generator
`function* backup(backupFn, retriesCount = 0)`. `env i` is the result of the
`i`-th attempt of `backupFn`, `delEnv i` the result of the cleanup delete
performed after the `i`-th attempt (if one happens), `rc` is `retriesCount`
and `left` the remaining retry budget `retries - retriesCount`. On a caught
failure it deletes `davDir ++ "/" ++ err.backupFilename` iff the error
carries a filename, then, if budget remains, waits `RETRY_DELAY` and recurses
with the incremented counter; otherwise it returns, swallowing the failure. -/
def backupLoop (env : Nat → AttemptResult) (delEnv : Nat → DeleteResult)
    (davDir : String) : Nat → Nat → List Event × BackupResult
  | rc, left =>
    match env rc with
    | .success => ([.attempt rc .success], .completed)
    | .fatal c => ([.attempt rc (.fatal c)], .fatalExit c)
    | .failure fn =>
      let cl : List Event :=
        match fn with
        | some f => [.cleanupDelete (davDir ++ "/" ++ f) (cleanupReaction (delEnv rc))]
        | none => []
      match left with
      | 0 => (.attempt rc (.failure fn) :: cl, .completed)
      | left' + 1 =>
        let rest := backupLoop env delEnv davDir (rc + 1) left'
        (.attempt rc (.failure fn) :: (cl ++ .delay RETRY_DELAY :: rest.1), rest.2)

/-- `yield* backup(backupFn)`: the orchestrator started with
`retriesCount = 0` and the configured `retries` as the budget. -/
def backup (env : Nat → AttemptResult) (delEnv : Nat → DeleteResult)
    (davDir : String) (retries : Nat) : List Event × BackupResult :=
  backupLoop env delEnv davDir 0 retries

/-- Number of producer+upload attempts recorded in a trace. -/
def attemptCount (tr : List Event) : Nat :=
  tr.countP fun e => match e with | .attempt _ _ => true | _ => false

/-- Number of cleanup deletes recorded in a trace. -/
def cleanupCount (tr : List Event) : Nat :=
  tr.countP fun e => match e with | .cleanupDelete _ _ => true | _ => false

/-! ## Backup filenames: producers and the matcher

`src/index.js` line 59 builds
`BACKUP_FILENAME_REGEXP = ^backup-<name>_(?:(mysql|mongo)-.+?_|)(\d{4}-\d{2}-\d{2})_(\d{2}-\d{2}-\d{2}-\d{3})(?:\.tgz|\.tar(?:\.gz|)|\.sql(?:\.gz|))$`
with `name` interpolated verbatim (the `name` option is declared alphanumeric,
so it matches itself literally). The producers build filenames at lines 164,
224 and 291 from `moment().format('YYYY-MM-DD_HH-mm-ss-SSS')`. The regexp is
embedded below as an anchored character-level parser with the same ordered
alternation and lazy (shortest-first) scan for `.+?`, returning the captured
kind, date and time on success. -/

/-- The two database kind tags the regexp group `(mysql|mongo)` can capture. -/
inductive DbKind where
  | mysql : DbKind
  | mongo : DbKind
deriving DecidableEq, Repr

/-- `\d{4}-\d{2}-\d{2}`: the date capture group, exactly ten characters. -/
def isDateChars : List Char → Bool
  | [a, b, c, d, '-', e, f, '-', g, h] =>
    a.isDigit && b.isDigit && c.isDigit && d.isDigit &&
    e.isDigit && f.isDigit && g.isDigit && h.isDigit
  | _ => false

/-- `\d{2}-\d{2}-\d{2}-\d{3}`: the time capture group, twelve characters. -/
def isTimeChars : List Char → Bool
  | [a, b, '-', c, d, '-', e, f, '-', g, h, i] =>
    a.isDigit && b.isDigit && c.isDigit && d.isDigit &&
    e.isDigit && f.isDigit && g.isDigit && h.isDigit && i.isDigit
  | _ => false

/-- `(?:\.tgz|\.tar(?:\.gz|)|\.sql(?:\.gz|))$`: the allowed extensions. -/
def isExtChars (cs : List Char) : Bool :=
  cs = ".tgz".data || cs = ".tar".data || cs = ".tar.gz".data ||
  cs = ".sql".data || cs = ".sql.gz".data

/-- JavaScript `.` without the `s` flag: any character except a line
terminator. -/
def isDotChar (c : Char) : Bool :=
  c ≠ '\n' && c ≠ '\r' && c ≠ '\u2028' && c ≠ '\u2029'

/-- The anchored suffix `(\d{4}-\d{2}-\d{2})_(\d{2}-\d{2}-\d{2}-\d{3})<ext>$`:
date (10 chars), `_`, time (12 chars), then one of the extensions up to the
end of input. Returns the date and time captures. -/
def parseDTE (cs : List Char) : Option (List Char × List Char) :=
  match cs.drop 10 with
  | '_' :: rest =>
    if isDateChars (cs.take 10) && isTimeChars (rest.take 12) && isExtChars (rest.drop 12) then
      some (cs.take 10, rest.take 12)
    else none
  | _ => none

/-- The lazy scan for `.+?_` followed by the anchored date/time/extension
suffix: consume at least one non-line-terminator character, and at each
position try the shortest remaining split first, exactly as a lazy quantifier
does. -/
def parseTargetRest : List Char → Option (List Char × List Char)
  | [] => none
  | c :: rest =>
    if isDotChar c then
      match rest with
      | '_' :: rest2 =>
        match parseDTE rest2 with
        | some dt => some dt
        | none => parseTargetRest rest
      | _ => parseTargetRest rest
    else none

/-- If `cs` starts with `pre`, return the remainder. -/
def stripLit (pre cs : List Char) : Option (List Char) :=
  if cs.take pre.length = pre then some (cs.drop pre.length) else none

/-- `src/index.js` line 59: the full anchored `BACKUP_FILENAME_REGEXP` match
on `s`, returning the captured kind group (none when the empty alternative of
`(?:(mysql|mongo)-.+?_|)` matched), date and time. Alternation is ordered:
the `mysql`/`mongo` branches are tried before the empty branch. -/
def backupFilenameMatch (name : String) (s : String) :
    Option (Option DbKind × List Char × List Char) :=
  match stripLit ("backup-" ++ name ++ "_").data s.data with
  | none => none
  | some tail =>
    match stripLit "mysql-".data tail with
    | some rest =>
      match parseTargetRest rest with
      | some (d, t) => some (some .mysql, d, t)
      | none => (parseDTE tail).map fun p => (none, p.1, p.2)
    | none =>
      match stripLit "mongo-".data tail with
      | some rest =>
        match parseTargetRest rest with
        | some (d, t) => some (some .mongo, d, t)
        | none => (parseDTE tail).map fun p => (none, p.1, p.2)
      | none => (parseDTE tail).map fun p => (none, p.1, p.2)

/-- `BACKUP_FILENAME_REGEXP.test(basename)` as used by the pruner. -/
def backupFilenameTest (name : String) (s : String) : Bool :=
  (backupFilenameMatch name s).isSome

/-- `src/index.js` line 164: the directory-archive filename,
`backup-<name>_<timestamp>.tgz` where the timestamp is
`moment().format('YYYY-MM-DD_HH-mm-ss-SSS')`, given here as its date and
time parts. -/
def tarBackupFilename (name : String) (date time : List Char) : String :=
  "backup-" ++ name ++ "_" ++ String.mk date ++ "_" ++ String.mk time ++ ".tgz"

/-- `src/index.js` line 224: `backup-<name>_mysql-<mysqlDb>_<timestamp>.sql.gz`. -/
def mysqlBackupFilename (name mysqlDb : String) (date time : List Char) : String :=
  "backup-" ++ name ++ "_mysql-" ++ mysqlDb ++ "_" ++
    String.mk date ++ "_" ++ String.mk time ++ ".sql.gz"

/-- `src/index.js` line 291: `backup-<name>_mongo-<mongoDb>_<timestamp>.sql.gz`. -/
def mongoBackupFilename (name mongoDb : String) (date time : List Char) : String :=
  "backup-" ++ name ++ "_mongo-" ++ mongoDb ++ "_" ++
    String.mk date ++ "_" ++ String.mk time ++ ".sql.gz"

/-! ## Retention pruner (`src/index.js` lines 89-100) -/

/-- A JavaScript number as used for `daysToKeep` (yargs default `Infinity`),
at integer precision. -/
inductive JsNum where
  | num : Int → JsNum
  | inf : JsNum
deriving DecidableEq, Repr

/-- `daysToKeep > 0 && daysToKeep < Infinity` (`src/index.js` line 90). -/
def pruneGuard : JsNum → Bool
  | .num x => decide (0 < x)
  | .inf => false

/-- The finite value of `daysToKeep` (meaningful under `pruneGuard`). -/
def daysVal : JsNum → Int
  | .num x => x
  | .inf => 0

/-- One entry of a WebDAV directory listing as destructured at
`src/index.js` line 93: `{ type, lastmod, filename: filePath, basename }`.
`lastmod` is the parsed `moment(lastmod)` instant in milliseconds. -/
structure DavEntry where
  type : String
  lastmod : Int
  filename : String
  basename : String
deriving DecidableEq, Repr

/-- `src/index.js` lines 91-95: `obsoleteMoment` is `now` minus
`moment.duration(daysToKeep, 'days').asMilliseconds()` (i.e. `daysToKeep *
86400000` ms), and an entry qualifies for deletion iff it is a file, its
basename matches `BACKUP_FILENAME_REGEXP`, and its last-modified instant is
strictly before `obsoleteMoment`. -/
def pruneEntryTest (name : String) (daysToKeep : Int) (now : Int) (e : DavEntry) : Bool :=
  e.type = "file" && backupFilenameTest name e.basename &&
    decide (e.lastmod < now - daysToKeep * 86400000)

/-- `src/index.js` lines 93-99: the deletion loop. `delEnv` gives the result
of `dav.deleteFile` per path. The delete is *not* guarded by any
`try`/`catch`: a rejected delete throws out of the loop (and out of the whole
`co` block). Returns the successfully deleted paths in order and, if a delete
rejected, the `status` of that error. -/
def pruneLoop (delEnv : String → DeleteResult) (test : DavEntry → Bool) :
    List DavEntry → List String × Option (Option Nat)
  | [] => ([], none)
  | e :: rest =>
    if test e then
      match delEnv e.filename with
      | .ok =>
        let r := pruneLoop delEnv test rest
        (e.filename :: r.1, r.2)
      | .err s => ([], some s)
    else pruneLoop delEnv test rest

/-! ## Remote directory bootstrapper (`src/index.js` lines 61-87) -/

/-- Result of `dav.getDirectoryContents`: fulfilled with a listing, or
rejected with an error whose `status` field is as given. -/
inductive ListResult where
  | ok : List DavEntry → ListResult
  | err : Option Nat → ListResult
deriving DecidableEq, Repr

/-- JavaScript `String.prototype.split` with a one-character separator,
written on character lists (`"a//b".split('/')` is `["a", "", "b"]`,
`"".split('/')` is `[""]`). -/
def splitOnChar (sep : Char) : List Char → List (List Char)
  | [] => [[]]
  | c :: rest =>
    match splitOnChar sep rest with
    | [] => [[c]]
    | g :: gs => if c = sep then [] :: g :: gs else (c :: g) :: gs

/-- `src/index.js` line 64: `davDir.split('/').filter(Boolean)`. -/
def davDirSegments (davDir : String) : List String :=
  ((splitOnChar '/' davDir.data).map fun cs => String.mk cs).filter fun s => s ≠ ""

/-- `src/index.js` line 69: `'/' + davDirSegments.slice(0, i).join('/')`. -/
def segmentedDavDir (segments : List String) (i : Nat) : String :=
  "/" ++ String.intercalate "/" (segments.take i)

/-- How the bootstrap `do`/`while` loop ends: normally, carrying the
`davDirContents` variable (the last successful listing, `none` if no listing
ever succeeded), the partial paths listed and the directories created; with
`process.exit(1)` on a 401; or by rethrowing a listing error (which aborts
the whole `co` block). -/
inductive BootOutcome where
  | done : Option (List DavEntry) → List String → List String → BootOutcome
  | exitWrongCredentials : List String → BootOutcome
  | thrown : Option Nat → List String → BootOutcome
deriving DecidableEq, Repr

/-- `src/index.js` lines 61-87: the bootstrap loop. Iterates `i` from `0`
while `i <= davDirSegments.length`, listing the partial path at each depth;
a 404 creates that directory and proceeds (leaving `davDirContents` at its
previous value), a 401 exits the process, any other listing error is
rethrown. `left` is the number of iterations still to come after the current
one (`segments.length - i`). `createDirectory` is assumed fulfilled. -/
def bootstrapLoop (store : String → ListResult) (segments : List String) :
    Nat → Nat → Option (List DavEntry) → List String → List String → BootOutcome
  | i, left, contents, listed, created =>
    match store (segmentedDavDir segments i) with
    | .ok es =>
      match left with
      | 0 => .done (some es) (listed ++ [segmentedDavDir segments i]) created
      | left' + 1 =>
        bootstrapLoop store segments (i + 1) left' (some es)
          (listed ++ [segmentedDavDir segments i]) created
    | .err s =>
      if s = some 404 then
        match left with
        | 0 =>
          .done contents (listed ++ [segmentedDavDir segments i])
            (created ++ [segmentedDavDir segments i])
        | left' + 1 =>
          bootstrapLoop store segments (i + 1) left' contents
            (listed ++ [segmentedDavDir segments i]) (created ++ [segmentedDavDir segments i])
      else if s = some 401 then .exitWrongCredentials (listed ++ [segmentedDavDir segments i])
      else .thrown s (listed ++ [segmentedDavDir segments i])

/-- The bootstrap loop started at depth 0 with `segments.length` further
iterations to go (depths `0` to `segments.length` inclusive). -/
def bootstrap (store : String → ListResult) (davDir : String) : BootOutcome :=
  let segs := davDirSegments davDir
  bootstrapLoop store segs 0 segs.length none [] []

/-! ## Run controller (`src/index.js` lines 18-158) -/

/-- The options consumed by the run (after yargs parsing and default
injection), restricted to the fields the modelled code reads. -/
structure Options where
  name : String
  daysToKeep : JsNum
  retries : Nat
  dirs : List String
  davDir : String
  mysqlDb : Option String
  mongoDb : Option String
deriving DecidableEq, Repr

/-- JavaScript truthiness of an optional string option (`undefined` and the
empty string are falsy). -/
def truthyStr : Option String → Bool
  | some s => s ≠ ""
  | none => false

/-- `dirs && dirs.length` (`src/index.js` lines 52, 134). -/
def hasDirs (o : Options) : Bool := o.dirs ≠ []

/-- Negation of the guard at `src/index.js` line 52:
`!(dirs && dirs.length) && !mysqlDb && !mongoDb` exits with code 1. -/
def hasTargets (o : Options) : Bool :=
  hasDirs o || truthyStr o.mysqlDb || truthyStr o.mongoDb

/-- The environment of one run: listing results per partial path, delete
results for retention pruning, per-attempt results and cleanup-delete results
for each of the three backup stages, and the current instant `now` in
milliseconds. -/
structure RunEnv where
  store : String → ListResult
  pruneDel : String → DeleteResult
  dirsEnv : Nat → AttemptResult
  dirsDel : Nat → DeleteResult
  mysqlEnv : Nat → AttemptResult
  mysqlDel : Nat → DeleteResult
  mongoEnv : Nat → AttemptResult
  mongoDel : Nat → DeleteResult
  now : Int

/-- Observable outcome of one run: the process exit code, the remote paths
deleted by the pruner, and the orchestrator trace of each backup stage. -/
structure RunResult where
  exitCode : Nat
  prunedPaths : List String
  dirsTrace : List Event
  mysqlTrace : List Event
  mongoTrace : List Event
deriving DecidableEq, Repr

/-- `src/index.js` lines 133-149: the three backup stages, each guarded by
its configuration flag, run strictly in sequence. A `process.exit` inside a
stage (a 507 upload error) stops everything; an exhausted retry budget does
not (the `backup` generator returns normally), so control falls through to
the next stage and finally to `.then(() => process.exit(0))`. -/
def runStages (o : Options) (env : RunEnv) : Nat × List Event × List Event × List Event :=
  let d := if hasDirs o then backup env.dirsEnv env.dirsDel o.davDir o.retries
           else ([], .completed)
  match d.2 with
  | .fatalExit c => (c, d.1, [], [])
  | .completed =>
    let my := if truthyStr o.mysqlDb then backup env.mysqlEnv env.mysqlDel o.davDir o.retries
              else ([], .completed)
    match my.2 with
    | .fatalExit c => (c, d.1, my.1, [])
    | .completed =>
      let mo := if truthyStr o.mongoDb then backup env.mongoEnv env.mongoDel o.davDir o.retries
                else ([], .completed)
      match mo.2 with
      | .fatalExit c => (c, d.1, my.1, mo.1)
      | .completed => (0, d.1, my.1, mo.1)

/-- `src/index.js` lines 18-158: one full run. No configured target exits
with code 1 before any remote call. Then bootstrap: a 401 exits with code 1,
any rethrown listing error reaches `.catch` and exits with code 1. Then, if
`daysToKeep > 0 && daysToKeep < Infinity`, the pruning loop runs over
`davDirContents`; iterating an undefined listing (possible when no listing
ever succeeded) throws a `TypeError`, and a rejected retention delete throws
— both reach `.catch` and exit with code 1 without running any backup stage.
Otherwise the three stages run and the run ends with exit code 0 unless a
stage exited the process. -/
def runController (o : Options) (env : RunEnv) : RunResult :=
  if hasTargets o = false then ⟨1, [], [], [], []⟩
  else
    match bootstrap env.store o.davDir with
    | .exitWrongCredentials _ => ⟨1, [], [], [], []⟩
    | .thrown _ _ => ⟨1, [], [], [], []⟩
    | .done contents _ _ =>
      if pruneGuard o.daysToKeep then
        match contents with
        | none => ⟨1, [], [], [], []⟩
        | some es =>
          let pr := pruneLoop env.pruneDel
            (pruneEntryTest o.name (daysVal o.daysToKeep) env.now) es
          match pr.2 with
          | some _ => ⟨1, pr.1, [], [], []⟩
          | none =>
            let st := runStages o env
            ⟨st.1, pr.1, st.2.1, st.2.2.1, st.2.2.2⟩
      else
        let st := runStages o env
        ⟨st.1, [], st.2.1, st.2.2.1, st.2.2.2⟩

/-! ## Lemmas about the retry/cleanup orchestrator -/

/-- Closed form of the orchestrator trace when every attempt fails with a
carried filename: each failed attempt is followed by exactly one cleanup
delete of `davDir/<filename>`, each retry is preceded by exactly one
`RETRY_DELAY` wait, and there are `left + 1` attempts in total. -/
theorem backupLoop_allFail (f : Nat → String) (delEnv : Nat → DeleteResult) (dd : String) :
    ∀ left rc,
    backupLoop (fun i => .failure (some (f i))) delEnv dd rc left =
      (((List.range' rc left).map fun i =>
          [Event.attempt i (.failure (some (f i))),
           Event.cleanupDelete (dd ++ "/" ++ f i) (cleanupReaction (delEnv i)),
           Event.delay RETRY_DELAY]).flatten ++
        [Event.attempt (rc + left) (.failure (some (f (rc + left)))),
         Event.cleanupDelete (dd ++ "/" ++ f (rc + left)) (cleanupReaction (delEnv (rc + left)))],
       .completed) := by
  intro left
  induction left with
  | zero => intro rc; simp [backupLoop]
  | succ l ih =>
    intro rc
    rw [show rc + (l + 1) = (rc + 1) + l by omega]
    conv_lhs => rw [backupLoop]
    simp only [ih, List.range'_succ]
    simp

/-- Closed form when every attempt fails with an error carrying no filename:
no cleanup delete happens at all, yet each attempt consumes budget and each
retry is preceded by the same fixed delay. -/
theorem backupLoop_bareFail (delEnv : Nat → DeleteResult) (dd : String) :
    ∀ left rc,
    backupLoop (fun _ => .failure none) delEnv dd rc left =
      (((List.range' rc left).map fun i =>
          [Event.attempt i (.failure none), Event.delay RETRY_DELAY]).flatten ++
        [Event.attempt (rc + left) (.failure none)],
       .completed) := by
  intro left
  induction left with
  | zero => intro rc; simp [backupLoop]
  | succ l ih =>
    intro rc
    rw [show rc + (l + 1) = (rc + 1) + l by omega]
    conv_lhs => rw [backupLoop]
    simp only [ih, List.range'_succ]
    simp

/-- The orchestrator makes at most `left + 1` attempts. -/
theorem backupLoop_attemptCount_le (env : Nat → AttemptResult) (delEnv : Nat → DeleteResult)
    (dd : String) : ∀ left rc, attemptCount (backupLoop env delEnv dd rc left).1 ≤ left + 1 := by
  intro left
  induction left with
  | zero =>
    intro rc
    rw [backupLoop]
    match env rc with
    | .success => simp [attemptCount]
    | .fatal c => simp [attemptCount]
    | .failure fn =>
      match fn with
      | some fname => simp [attemptCount]
      | none => simp [attemptCount]
  | succ l ih =>
    intro rc
    rw [backupLoop]
    match env rc with
    | .success => simp [attemptCount]
    | .fatal c => simp [attemptCount]
    | .failure fn =>
      have := ih (rc + 1)
      match fn with
      | some fname =>
        simp [attemptCount, List.countP_cons, List.countP_append] at *
        omega
      | none =>
        simp [attemptCount, List.countP_cons, List.countP_append] at *
        omega

/-- If no attempt exits the process, the generator returns normally (even
when the retry budget is exhausted by failures). -/
theorem backupLoop_completed (env : Nat → AttemptResult) (delEnv : Nat → DeleteResult)
    (dd : String) (h : ∀ i c, env i ≠ .fatal c) :
    ∀ left rc, (backupLoop env delEnv dd rc left).2 = .completed := by
  intro left
  induction left with
  | zero =>
    intro rc
    rw [backupLoop]
    match he : env rc with
    | .success => simp
    | .fatal c => exact absurd he (h rc c)
    | .failure fn => match fn with
      | some fname => simp
      | none => simp
  | succ l ih =>
    intro rc
    rw [backupLoop]
    match he : env rc with
    | .success => simp
    | .fatal c => exact absurd he (h rc c)
    | .failure fn =>
      have := ih (rc + 1)
      match fn with
      | some fname => simpa using this
      | none => simpa using this

/-- The trace always starts with the attempt at the current counter. -/
theorem backupLoop_head (env : Nat → AttemptResult) (delEnv : Nat → DeleteResult)
    (dd : String) (left rc : Nat) :
    ∃ r tl, (backupLoop env delEnv dd rc left).1 = .attempt rc r :: tl := by
  rw [backupLoop]
  match env rc with
  | .success => exact ⟨.success, [], rfl⟩
  | .fatal c => exact ⟨.fatal c, [], rfl⟩
  | .failure fn =>
    match fn, left with
    | some fname, 0 => exact ⟨_, _, rfl⟩
    | none, 0 => exact ⟨_, _, rfl⟩
    | some fname, l + 1 => exact ⟨_, _, rfl⟩
    | none, l + 1 => exact ⟨_, _, rfl⟩

/-- If the generator ended in a `process.exit`, the very last event of its
trace is the fatal attempt itself: no cleanup delete, no delay and no further
attempt comes after it. -/
theorem backupLoop_fatal_last (env : Nat → AttemptResult) (delEnv : Nat → DeleteResult)
    (dd : String) :
    ∀ left rc c, (backupLoop env delEnv dd rc left).2 = .fatalExit c →
    ∃ j, env j = .fatal c ∧
      (backupLoop env delEnv dd rc left).1.getLast? = some (.attempt j (.fatal c)) := by
  intro left
  induction left with
  | zero =>
    intro rc c hres
    rw [backupLoop] at hres ⊢
    rcases he : env rc with _ | fn | c'
    · rw [he] at hres; simp at hres
    · rw [he] at hres; rcases fn with _ | fname <;> simp at hres
    · rw [he] at hres
      simp at hres
      subst hres
      exact ⟨rc, he, by simp⟩
  | succ l ih =>
    intro rc c hres
    rw [backupLoop] at hres ⊢
    rcases he : env rc with _ | fn | c'
    · rw [he] at hres; simp at hres
    · rw [he] at hres
      obtain ⟨j, hj, hlast⟩ := ih (rc + 1) c (by
        rcases fn with _ | fname <;> simpa using hres)
      refine ⟨j, hj, ?_⟩
      obtain ⟨r, tl, htr⟩ := backupLoop_head env delEnv dd l (rc + 1)
      rcases fn with _ | fname <;> simp [htr] <;> simpa [htr] using hlast
    · rw [he] at hres
      simp at hres
      subst hres
      exact ⟨rc, he, by simp⟩

/-- Replace every cleanup reaction in a trace by `noWarn`: the part of the
trace that does not depend on the results of the cleanup deletes. -/
def eraseReactions : List Event → List Event :=
  List.map fun e =>
    match e with
    | .cleanupDelete p _ => .cleanupDelete p .noWarn
    | e => e

/-- The control flow of the orchestrator is entirely independent of the
results of the cleanup deletes: only the logged reaction differs. -/
theorem backupLoop_delEnv_irrelevant (env : Nat → AttemptResult)
    (d1 d2 : Nat → DeleteResult) (dd : String) :
    ∀ left rc,
      (backupLoop env d1 dd rc left).2 = (backupLoop env d2 dd rc left).2 ∧
      eraseReactions (backupLoop env d1 dd rc left).1 =
        eraseReactions (backupLoop env d2 dd rc left).1 := by
  intro left
  induction left with
  | zero =>
    intro rc
    rw [backupLoop, backupLoop]
    match env rc with
    | .success => exact ⟨rfl, rfl⟩
    | .fatal c => exact ⟨rfl, rfl⟩
    | .failure fn =>
      match fn with
      | some fname => simp [eraseReactions]
      | none => exact ⟨rfl, rfl⟩
  | succ l ih =>
    intro rc
    rw [backupLoop, backupLoop]
    match env rc with
    | .success => exact ⟨rfl, rfl⟩
    | .fatal c => exact ⟨rfl, rfl⟩
    | .failure fn =>
      obtain ⟨h2, h1⟩ := ih (rc + 1)
      match fn with
      | some fname =>
        refine ⟨h2, ?_⟩
        simp [eraseReactions] at h1 ⊢
        exact h1
      | none =>
        refine ⟨h2, ?_⟩
        simp [eraseReactions] at h1 ⊢
        exact h1

/-! ## Claims about the orchestrator and the upload handlers -/

/-- C2: for every backup job whose attempts fail with an error carrying an
artifact filename, the orchestrator performs at most `retries + 1` attempts
of the producer+upload operation in total, and (closed-form trace) attempts
exactly one cleanup delete of `davDir/<filename>` after each failed attempt —
hence exactly one before each retry — and waits exactly one fixed
`RETRY_DELAY = 10` seconds before each retry, after which the failure
surfaces no further (the generator returns to the controller). -/
theorem claim_C2 :
    (∀ (env : Nat → AttemptResult) (delEnv : Nat → DeleteResult) (davDir : String)
       (retries : Nat), attemptCount (backup env delEnv davDir retries).1 ≤ retries + 1)
    ∧ RETRY_DELAY = 10 * 1000
    ∧ (∀ (f : Nat → String) (delEnv : Nat → DeleteResult) (davDir : String) (retries : Nat),
        backup (fun i => .failure (some (f i))) delEnv davDir retries =
          (((List.range retries).map fun i =>
              [Event.attempt i (.failure (some (f i))),
               Event.cleanupDelete (davDir ++ "/" ++ f i) (cleanupReaction (delEnv i)),
               Event.delay RETRY_DELAY]).flatten ++
            [Event.attempt retries (.failure (some (f retries))),
             Event.cleanupDelete (davDir ++ "/" ++ f retries) (cleanupReaction (delEnv retries))],
           .completed)) := by
  refine ⟨?_, rfl, ?_⟩
  · intro env delEnv davDir retries
    simpa using backupLoop_attemptCount_le env delEnv davDir retries 0
  · intro f delEnv davDir retries
    have h := backupLoop_allFail f delEnv davDir retries 0
    simpa [backup, List.range_eq_range'] using h

/-- C3: for each of the three upload response handlers, the job succeeds iff
the acknowledgment status is 201 ("created"); any other status — the byte
stream having completed, since a response was received at all — rejects with
an error carrying the generated artifact filename for cleanup. -/
theorem claim_C3 : ∀ (fname : String) (sc : Nat),
    ((backupTarResponse fname sc = .resolved ↔ sc = 201)
      ∧ (sc ≠ 201 → backupTarResponse fname sc = .rejected (some fname)))
    ∧ ((backupMysqlResponse fname sc = .resolved ↔ sc = 201)
      ∧ (sc ≠ 201 → backupMysqlResponse fname sc = .rejected (some fname)))
    ∧ ((backupMongoResponse fname sc = .resolved ↔ sc = 201)
      ∧ (sc ≠ 201 → backupMongoResponse fname sc = .rejected (some fname))) := by
  intro fname sc
  by_cases h : sc = 201 <;>
    simp [backupTarResponse, backupMysqlResponse, backupMongoResponse, h]

/-- Witness for C3 at status 500. -/
theorem claim_C3_witness :
    backupTarResponse "f.tgz" 500 = .rejected (some "f.tgz") :=
  ((claim_C3 "f.tgz" 500).1).2 (by decide)

/-- C9: during the cleanup delete inside the retry orchestrator, a 404 is
silently accepted, a 401 produces only a "Wrong credentials" warning, and any
other delete error is merely logged; moreover the orchestrator's control flow
(its result and its trace up to the logged reactions) does not depend on the
cleanup-delete results at all, so the retry proceeds unaffected. -/
theorem claim_C9 :
    cleanupReaction (.err (some 404)) = .noWarn
    ∧ cleanupReaction (.err (some 401)) = .warnWrongCredentials
    ∧ (∀ s, s ≠ some 401 → s ≠ some 404 → cleanupReaction (.err s) = .warnError)
    ∧ (∀ (env : Nat → AttemptResult) (d1 d2 : Nat → DeleteResult) (davDir : String)
         (retries : Nat),
        (backup env d1 davDir retries).2 = (backup env d2 davDir retries).2
        ∧ eraseReactions (backup env d1 davDir retries).1 =
            eraseReactions (backup env d2 davDir retries).1) := by
  refine ⟨rfl, rfl, ?_, ?_⟩
  · intro s h401 h404
    simp [cleanupReaction, h401, h404]
  · intro env d1 d2 davDir retries
    exact backupLoop_delEnv_irrelevant env d1 d2 davDir retries 0

/-- Witness for C9 at a delete error with status 500. -/
theorem claim_C9_witness :
    cleanupReaction (.err (some 500)) = .warnError :=
  claim_C9.2.2.1 (some 500) (by decide) (by decide)

/-- C10: a spawn failure and a non-507 transport error reject without any
carried filename; for attempts failing this way the orchestrator performs no
cleanup delete at all, yet each attempt still consumes one unit of the same
`retries + 1` budget and each retry is preceded by the same fixed delay. -/
theorem claim_C10 :
    spawnErrorHandler = .rejected none
    ∧ (∀ s, s ≠ some 507 → putErrorHandler s = .rejected none)
    ∧ (∀ (delEnv : Nat → DeleteResult) (davDir : String) (retries : Nat),
        backup (fun _ => .failure none) delEnv davDir retries =
          (((List.range retries).map fun i =>
              [Event.attempt i (.failure none), Event.delay RETRY_DELAY]).flatten ++
            [Event.attempt retries (.failure none)],
           .completed)) := by
  refine ⟨rfl, ?_, ?_⟩
  · intro s h
    simp [putErrorHandler, h]
  · intro delEnv davDir retries
    have h := backupLoop_bareFail delEnv davDir retries 0
    simpa [backup, List.range_eq_range'] using h

/-- Witness for C10 at a transport error with status 500. -/
theorem claim_C10_witness :
    putErrorHandler (some 500) = .rejected none :=
  claim_C10.2.1 (some 500) (by decide)

/-- C7: an upload transport error with status 507 ("insufficient storage")
exits the process with code 1 directly from the event handler. Whenever an
attempt is fatal, the orchestrator's trace ends at that very attempt — no
cleanup delete, no delay and no further attempt follow — and in the run
controller a fatal directory stage yields that exit code with the remaining
jobs (MySQL, MongoDB) never attempted. -/
theorem claim_C7 :
    putErrorHandler (some 507) = .exitProcess 1
    ∧ (∀ (env : Nat → AttemptResult) (delEnv : Nat → DeleteResult) (davDir : String)
         (retries c : Nat), (backup env delEnv davDir retries).2 = .fatalExit c →
        ∃ j, env j = .fatal c ∧
          (backup env delEnv davDir retries).1.getLast? = some (.attempt j (.fatal c)))
    ∧ (∀ (o : Options) (env : RunEnv) (c : Nat), hasDirs o = true →
        (backup env.dirsEnv env.dirsDel o.davDir o.retries).2 = .fatalExit c →
        runStages o env = (c, (backup env.dirsEnv env.dirsDel o.davDir o.retries).1, [], [])) := by
  refine ⟨rfl, ?_, ?_⟩
  · intro env delEnv davDir retries c h
    exact backupLoop_fatal_last env delEnv davDir retries 0 c h
  · intro o env c hdirs hfatal
    simp only [runStages, hdirs, if_true]
    rw [hfatal]

/-- Options for the C7 witness run: directories configured. -/
def w7opts : Options := ⟨"nightly", .inf, 1, ["/data"], "/backup", none, none⟩

/-- Environment for the C7 witness run: the first directory-stage attempt
hits the fatal 507 path. -/
def w7env : RunEnv :=
  ⟨fun _ => .ok [], fun _ => .ok, fun _ => .fatal 1, fun _ => .ok,
   fun _ => .success, fun _ => .ok, fun _ => .success, fun _ => .ok, 0⟩

/-- Witness for C7: with a fatal first attempt of the directory stage the run
stops at that attempt with exit code 1 and no further job runs. -/
theorem claim_C7_witness :
    runStages w7opts w7env = (1, [Event.attempt 0 (.fatal 1)], [], []) := by
  have h := claim_C7.2.2 w7opts w7env 1 (by decide) (by decide)
  exact h.trans (by decide)

/-! ## Lemmas about pruning and the run controller -/

/-- When every retention delete is fulfilled, the pruning loop deletes
exactly the entries passing the test, in listing order. -/
theorem pruneLoop_allOk (test : DavEntry → Bool) :
    ∀ es, pruneLoop (fun _ => .ok) test es =
      ((es.filter test).map (fun e => e.filename), none) := by
  intro es
  induction es with
  | nil => simp [pruneLoop]
  | cons e rest ih => by_cases h : test e <;> simp [pruneLoop, h, ih]

/-- The first attempt always happens: every orchestrator trace contains at
least one attempt. -/
theorem backup_attemptCount_pos (env : Nat → AttemptResult) (delEnv : Nat → DeleteResult)
    (dd : String) (retries : Nat) : 1 ≤ attemptCount (backup env delEnv dd retries).1 := by
  obtain ⟨r, tl, h⟩ := backupLoop_head env delEnv dd retries 0
  rw [backup, h]
  simp [attemptCount]

/-- Unfolding of the controller when pruning is switched off
(`daysToKeep` non-positive or `Infinity`): straight to the stages. -/
theorem runController_eq_of_guard_false (o : Options) (env : RunEnv)
    (hT : hasTargets o = true) (c : Option (List DavEntry)) (lst cr : List String)
    (hboot : bootstrap env.store o.davDir = .done c lst cr)
    (hg : pruneGuard o.daysToKeep = false) :
    runController o env =
      ⟨(runStages o env).1, [], (runStages o env).2.1,
       (runStages o env).2.2.1, (runStages o env).2.2.2⟩ := by
  simp [runController, hT, hboot, hg]

/-- Unfolding of the controller when pruning runs and no retention delete
rejects. -/
theorem runController_eq_of_prune_ok (o : Options) (env : RunEnv) (es : List DavEntry)
    (lst cr : List String) (hT : hasTargets o = true)
    (hboot : bootstrap env.store o.davDir = .done (some es) lst cr)
    (hg : pruneGuard o.daysToKeep = true)
    (hp : (pruneLoop env.pruneDel
            (pruneEntryTest o.name (daysVal o.daysToKeep) env.now) es).2 = none) :
    runController o env =
      ⟨(runStages o env).1,
       (pruneLoop env.pruneDel (pruneEntryTest o.name (daysVal o.daysToKeep) env.now) es).1,
       (runStages o env).2.1, (runStages o env).2.2.1, (runStages o env).2.2.2⟩ := by
  simp only [runController, hT, hboot, hg]
  simp [hp]

/-- Unfolding of the controller when pruning runs and some retention delete
rejects: the error reaches the final `catch`, the run exits with code 1, and
no backup stage executes. -/
theorem runController_eq_of_prune_err (o : Options) (env : RunEnv) (es : List DavEntry)
    (lst cr : List String) (s : Option Nat) (hT : hasTargets o = true)
    (hboot : bootstrap env.store o.davDir = .done (some es) lst cr)
    (hg : pruneGuard o.daysToKeep = true)
    (hp : (pruneLoop env.pruneDel
            (pruneEntryTest o.name (daysVal o.daysToKeep) env.now) es).2 = some s) :
    runController o env =
      ⟨1,
       (pruneLoop env.pruneDel (pruneEntryTest o.name (daysVal o.daysToKeep) env.now) es).1,
       [], [], []⟩ := by
  simp only [runController, hT, hboot, hg]
  simp [hp]

/-- When no attempt of any stage is fatal, the stages run in sequence, each
configured one producing its orchestrator trace, and the controller reaches
`process.exit(0)` whatever the attempt results were. -/
theorem runStages_no_fatal (o : Options) (env : RunEnv)
    (h1 : ∀ i k, env.dirsEnv i ≠ .fatal k)
    (h2 : ∀ i k, env.mysqlEnv i ≠ .fatal k)
    (h3 : ∀ i k, env.mongoEnv i ≠ .fatal k) :
    runStages o env =
      (0,
       (if hasDirs o then (backup env.dirsEnv env.dirsDel o.davDir o.retries).1 else []),
       (if truthyStr o.mysqlDb then (backup env.mysqlEnv env.mysqlDel o.davDir o.retries).1 else []),
       (if truthyStr o.mongoDb then (backup env.mongoEnv env.mongoDel o.davDir o.retries).1 else [])) := by
  have c1 := backupLoop_completed env.dirsEnv env.dirsDel o.davDir h1 o.retries 0
  have c2 := backupLoop_completed env.mysqlEnv env.mysqlDel o.davDir h2 o.retries 0
  have c3 := backupLoop_completed env.mongoEnv env.mongoDel o.davDir h3 o.retries 0
  by_cases hd : hasDirs o <;> by_cases hmy : truthyStr o.mysqlDb <;>
    by_cases hmo : truthyStr o.mongoDb <;>
    simp [runStages, backup, hd, hmy, hmo, c1, c2, c3]

/-! ## Claims about pruning and the run controller -/

/-- C4: under a finite positive retention window the pruner deletes a listed
entry iff it is a file whose basename matches the backup-filename pattern for
the configured run name and whose last-modified time is strictly before
`now - daysToKeep` days; under an unbounded or non-positive window pruning is
skipped entirely and no entry is deleted. (The deletion set equals the
filtered listing when the retention deletes themselves are fulfilled.) -/
theorem claim_C4 :
    (∀ (name : String) (x : Int) (now : Int) (e : DavEntry),
        pruneEntryTest name x now e = true ↔
          (e.type = "file" ∧ backupFilenameTest name e.basename = true ∧
            e.lastmod < now - x * 86400000))
    ∧ (∀ (o : Options) (env : RunEnv) (es : List DavEntry) (lst cr : List String) (x : Int),
        hasTargets o = true → o.daysToKeep = .num x → 0 < x →
        bootstrap env.store o.davDir = .done (some es) lst cr →
        env.pruneDel = (fun _ => .ok) →
        (runController o env).prunedPaths =
          (es.filter (pruneEntryTest o.name x env.now)).map (fun e => e.filename))
    ∧ (∀ (o : Options) (env : RunEnv),
        (o.daysToKeep = .inf ∨ ∃ x, o.daysToKeep = .num x ∧ x ≤ 0) →
        (runController o env).prunedPaths = []) := by
  refine ⟨?_, ?_, ?_⟩
  · intro name x now e
    simp [pruneEntryTest, and_assoc]
  · intro o env es lst cr x hT hdk h0 hboot hdel
    have hg : pruneGuard o.daysToKeep = true := by simp [pruneGuard, hdk, h0]
    have h := runController_eq_of_prune_ok o env es lst cr hT hboot hg
      (by rw [hdel, pruneLoop_allOk])
    rw [h]
    simp [hdel, pruneLoop_allOk, daysVal, hdk]
  · intro o env h
    have hg : pruneGuard o.daysToKeep = false := by
      rcases h with h | ⟨x, hx, hle⟩
      · simp [pruneGuard, h]
      · simp [pruneGuard, hx]; omega
    unfold runController
    split
    · rfl
    · split
      · rfl
      · rfl
      · simp [hg]

/-- Witness for C4: a seven-day window on a ten-day-old matching file entry
prunes exactly that file. -/
theorem claim_C4_witness :
    pruneEntryTest "nightly" 7 864000000
      ⟨"file", 0, "/backup/backup-nightly_2024-01-01_00-00-00-000.tgz",
       "backup-nightly_2024-01-01_00-00-00-000.tgz"⟩ = true :=
  (claim_C4.1 "nightly" 7 864000000 _).2 (by refine ⟨rfl, by decide, by decide⟩)

/-- Options of the run used to refute C1: directories configured,
`daysToKeep` unbounded, one retry. -/
def c1opts : Options := ⟨"nightly", .inf, 1, ["/data"], "/backup", none, none⟩

/-- Environment of the run used to refute C1: every listing succeeds and
every attempt of the directory stage fails with a carried filename, so the
stage exhausts its retry budget. -/
def c1env : RunEnv :=
  ⟨fun _ => .ok [], fun _ => .ok, fun _ => .failure (some "broken.tgz"), fun _ => .ok,
   fun _ => .success, fun _ => .ok, fun _ => .success, fun _ => .ok, 0⟩

/-- Counterexample to C1 as stated: the directory stage exhausts its retry
budget (both attempts fail), yet the run reaches `process.exit(0)` — the
terminal outcome is success, not failure, because the `backup` generator
swallows the exhausted failure instead of surfacing it. -/
theorem claim_C1_counterexample :
    runController c1opts c1env =
      ⟨0, [],
       [.attempt 0 (.failure (some "broken.tgz")),
        .cleanupDelete "/backup/broken.tgz" .noWarn,
        .delay 10000,
        .attempt 1 (.failure (some "broken.tgz")),
        .cleanupDelete "/backup/broken.tgz" .noWarn],
       [], []⟩ := by decide

/-- C1 (amended): when the run reaches the backup stages (bootstrap
completed normally and pruning raised no error) and no attempt hits the
fatal `process.exit` path, the process exit code is 0 regardless of whether
any stage exhausted its retry budget; and every configured stage still runs
(at least one attempt), so failures do not short-circuit sibling stages. -/
theorem claim_C1 : ∀ (o : Options) (env : RunEnv) (c : Option (List DavEntry))
    (lst cr : List String),
    hasTargets o = true →
    bootstrap env.store o.davDir = .done c lst cr →
    (pruneGuard o.daysToKeep = true → ∃ es, c = some es ∧
      (pruneLoop env.pruneDel
        (pruneEntryTest o.name (daysVal o.daysToKeep) env.now) es).2 = none) →
    (∀ i k, env.dirsEnv i ≠ .fatal k) →
    (∀ i k, env.mysqlEnv i ≠ .fatal k) →
    (∀ i k, env.mongoEnv i ≠ .fatal k) →
    (runController o env).exitCode = 0
    ∧ (hasDirs o = true → 1 ≤ attemptCount (runController o env).dirsTrace)
    ∧ (truthyStr o.mysqlDb = true → 1 ≤ attemptCount (runController o env).mysqlTrace)
    ∧ (truthyStr o.mongoDb = true → 1 ≤ attemptCount (runController o env).mongoTrace) := by
  intro o env c lst cr hT hboot hprune h1 h2 h3
  have hst := runStages_no_fatal o env h1 h2 h3
  by_cases hg : pruneGuard o.daysToKeep = true
  · obtain ⟨es, hc, hp⟩ := hprune hg
    subst hc
    have h := runController_eq_of_prune_ok o env es lst cr hT hboot hg hp
    rw [h, hst]
    refine ⟨rfl, ?_, ?_, ?_⟩ <;> intro hcfg <;> simp only [hcfg, if_true] <;>
      apply backup_attemptCount_pos
  · have h := runController_eq_of_guard_false o env hT c lst cr hboot
      (Bool.eq_false_iff.mpr hg)
    rw [h, hst]
    refine ⟨rfl, ?_, ?_, ?_⟩ <;> intro hcfg <;> simp only [hcfg, if_true] <;>
      apply backup_attemptCount_pos

/-- Witness for the amended C1, at the run refuting the original claim. -/
theorem claim_C1_witness :
    (runController c1opts c1env).exitCode = 0
    ∧ 1 ≤ attemptCount (runController c1opts c1env).dirsTrace := by
  have h := claim_C1 c1opts c1env (some []) ["/", "/backup"] [] (by decide) (by decide)
    (by intro hg; exact absurd hg (by decide))
    (by intro i k; simp [c1env]) (by intro i k; simp [c1env]) (by intro i k; simp [c1env])
  exact ⟨h.1, h.2.1 (by decide)⟩

/-- A ten-day-old matching backup file, first of the two listed. -/
def c6e1 : DavEntry :=
  ⟨"file", 0, "/backup/backup-nightly_2024-01-01_00-00-00-000.tgz",
   "backup-nightly_2024-01-01_00-00-00-000.tgz"⟩

/-- A second ten-day-old matching backup file, also eligible for pruning. -/
def c6e2 : DavEntry :=
  ⟨"file", 0, "/backup/backup-nightly_2024-01-02_00-00-00-000.tgz",
   "backup-nightly_2024-01-02_00-00-00-000.tgz"⟩

/-- Options of the run used to refute C6: directories configured and a
seven-day retention window. -/
def c6opts : Options := ⟨"nightly", .num 7, 1, ["/data"], "/backup", none, none⟩

/-- Environment of the run used to refute C6: the listing of `/backup` holds
the two eligible files and every `dav.deleteFile` rejects with status 500;
`now` is ten days past the files' last-modified instant. -/
def c6env : RunEnv :=
  ⟨fun d => if d = "/backup" then .ok [c6e1, c6e2] else .ok [],
   fun _ => .err (some 500),
   fun _ => .success, fun _ => .ok, fun _ => .success, fun _ => .ok,
   fun _ => .success, fun _ => .ok, 864000000⟩

/-- Counterexample to C6 as stated: the retention delete of the first
eligible entry fails, and the run aborts with exit code 1 — the second,
equally eligible entry is never considered and no backup stage executes,
although directories are configured. -/
theorem claim_C6_counterexample :
    runController c6opts c6env = ⟨1, [], [], [], []⟩
    ∧ pruneEntryTest "nightly" 7 864000000 c6e2 = true
    ∧ hasDirs c6opts = true := by
  refine ⟨by decide, by decide, by decide⟩

/-- C6 (amended): a rejected retention delete is not caught anywhere inside
the pruning loop; the error propagates to the final `catch`, which logs it
and exits the process with code 1 — remaining entries are not considered and
no backup stage executes, so a retention-delete failure does abort the run
and does determine its outcome. -/
theorem claim_C6 : ∀ (o : Options) (env : RunEnv) (es : List DavEntry)
    (lst cr : List String) (s : Option Nat),
    hasTargets o = true →
    bootstrap env.store o.davDir = .done (some es) lst cr →
    pruneGuard o.daysToKeep = true →
    (pruneLoop env.pruneDel
      (pruneEntryTest o.name (daysVal o.daysToKeep) env.now) es).2 = some s →
    runController o env =
      ⟨1, (pruneLoop env.pruneDel
            (pruneEntryTest o.name (daysVal o.daysToKeep) env.now) es).1, [], [], []⟩ := by
  intro o env es lst cr s hT hboot hg hp
  exact runController_eq_of_prune_err o env es lst cr s hT hboot hg hp

/-- Witness for the amended C6, at the run refuting the original claim. -/
theorem claim_C6_witness :
    runController c6opts c6env = ⟨1, [], [], [], []⟩ := by
  have h := claim_C6 c6opts c6env [c6e1, c6e2] ["/", "/backup"] [] (some 500)
    (by decide) (by decide) (by decide) (by decide)
  exact h.trans (by decide)

/-! ## Lemmas about the bootstrapper -/

/-- Whether a listing result is the not-found the bootstrapper absorbs by
creating the directory. -/
def is404 : ListResult → Bool
  | .ok _ => false
  | .err s => s = some 404

/-- Whether a listing result lets the bootstrap loop proceed to the next
depth (fulfilled, or absorbed not-found). -/
def okOr404 : ListResult → Bool
  | .ok _ => true
  | .err s => s = some 404

/-- The value of the `davDirContents` variable after the loop has processed
the given partial paths in order: each successful listing overwrites it,
absorbed failures leave it unchanged. -/
def foldContents (store : String → ListResult) (acc : Option (List DavEntry))
    (dirs : List String) : Option (List DavEntry) :=
  dirs.foldl (fun a d => match store d with | .ok es => some es | .err _ => a) acc

/-- When the bootstrap loop finishes normally it has listed every depth from
the current one to the last, retained the most recent successful listing in
`davDirContents`, and created exactly the directories whose listing failed
with not-found. -/
theorem bootstrapLoop_done (store : String → ListResult) (segs : List String) :
    ∀ left i contents listed created c l cr,
    bootstrapLoop store segs i left contents listed created = .done c l cr →
    l = listed ++ (List.range' i (left + 1)).map (segmentedDavDir segs)
    ∧ c = foldContents store contents ((List.range' i (left + 1)).map (segmentedDavDir segs))
    ∧ cr = created ++ ((List.range' i (left + 1)).map (segmentedDavDir segs)).filter
        (fun d => is404 (store d)) := by
  intro left
  induction left with
  | zero =>
    intro i contents listed created c l cr h
    rw [bootstrapLoop] at h
    rcases hs : store (segmentedDavDir segs i) with es | s
    · rw [hs] at h
      simp only [BootOutcome.done.injEq] at h
      obtain ⟨h1, h2, h3⟩ := h
      simp [← h1, ← h2, ← h3, foldContents, hs, is404, List.range'_one]
    · rw [hs] at h
      by_cases h404 : s = some 404
      · simp [h404] at h
        obtain ⟨h1, h2, h3⟩ := h
        simp [← h1, ← h2, ← h3, foldContents, hs, is404, h404, List.range'_one]
      · by_cases h401 : s = some 401 <;> simp [h404, h401] at h
  | succ left' ih =>
    intro i contents listed created c l cr h
    rw [bootstrapLoop] at h
    rcases hs : store (segmentedDavDir segs i) with es | s
    · rw [hs] at h
      obtain ⟨h1, h2, h3⟩ := ih (i + 1) (some es) _ _ c l cr h
      refine ⟨?_, ?_, ?_⟩ <;>
        simp [h1, h2, h3, foldContents, hs, is404, List.range'_succ]
    · rw [hs] at h
      by_cases h404 : s = some 404
      · simp only [h404, if_true] at h
        obtain ⟨h1, h2, h3⟩ := ih (i + 1) contents _ _ c l cr h
        refine ⟨?_, ?_, ?_⟩ <;>
          simp [h1, h2, h3, foldContents, hs, is404, h404, List.range'_succ]
      · by_cases h401 : s = some 401 <;> simp [h404, h401] at h

/-- A 401 listing failure at depth `k` (all shallower depths having been
fulfilled or absorbed as not-found) makes the loop exit the process
immediately, having listed only depths up to `k`. -/
theorem bootstrapLoop_401 (store : String → ListResult) (segs : List String) :
    ∀ k left i contents listed created, k ≤ left →
    (∀ j, j < k → okOr404 (store (segmentedDavDir segs (i + j))) = true) →
    store (segmentedDavDir segs (i + k)) = .err (some 401) →
    bootstrapLoop store segs i left contents listed created =
      .exitWrongCredentials (listed ++ (List.range' i (k + 1)).map (segmentedDavDir segs)) := by
  intro k
  induction k with
  | zero =>
    intro left i contents listed created _ _ hs
    rw [Nat.add_zero] at hs
    cases left <;> (rw [bootstrapLoop, hs]; simp [List.range'_one])
  | succ k ih =>
    intro left i contents listed created hk hprev hs
    match left with
    | 0 => omega
    | left' + 1 =>
      have h0 : okOr404 (store (segmentedDavDir segs i)) = true := by
        have := hprev 0 (by omega)
        simpa using this
      have hprev' : ∀ j, j < k → okOr404 (store (segmentedDavDir segs (i + 1 + j))) = true := by
        intro j hj
        have := hprev (j + 1) (by omega)
        rwa [show i + (j + 1) = i + 1 + j by omega] at this
      have hs' : store (segmentedDavDir segs (i + 1 + k)) = .err (some 401) := by
        rwa [show i + (k + 1) = i + 1 + k by omega] at hs
      rw [bootstrapLoop]
      rcases hst : store (segmentedDavDir segs i) with es | s2
      · show bootstrapLoop store segs (i + 1) left' (some es)
          (listed ++ [segmentedDavDir segs i]) created = _
        rw [ih left' (i + 1) (some es) _ _ (by omega) hprev' hs']
        simp [List.range'_succ]
      · rw [hst] at h0
        simp [okOr404] at h0
        subst h0
        show bootstrapLoop store segs (i + 1) left' contents
          (listed ++ [segmentedDavDir segs i]) (created ++ [segmentedDavDir segs i]) = _
        rw [ih left' (i + 1) contents _ _ (by omega) hprev' hs']
        simp [List.range'_succ]

/-- Any listing failure other than not-found and unauthorized at depth `k`
(all shallower depths fulfilled or absorbed) is rethrown, aborting the loop
with the listing attempts stopped at depth `k`. -/
theorem bootstrapLoop_thrown (store : String → ListResult) (segs : List String) :
    ∀ k left i contents listed created (s : Option Nat), k ≤ left →
    (∀ j, j < k → okOr404 (store (segmentedDavDir segs (i + j))) = true) →
    store (segmentedDavDir segs (i + k)) = .err s → s ≠ some 404 → s ≠ some 401 →
    bootstrapLoop store segs i left contents listed created =
      .thrown s (listed ++ (List.range' i (k + 1)).map (segmentedDavDir segs)) := by
  intro k
  induction k with
  | zero =>
    intro left i contents listed created s _ _ hs h404 h401
    rw [Nat.add_zero] at hs
    cases left <;> (rw [bootstrapLoop, hs]; simp [h404, h401, List.range'_one])
  | succ k ih =>
    intro left i contents listed created s hk hprev hs h404 h401
    match left with
    | 0 => omega
    | left' + 1 =>
      have h0 : okOr404 (store (segmentedDavDir segs i)) = true := by
        have := hprev 0 (by omega)
        simpa using this
      have hprev' : ∀ j, j < k → okOr404 (store (segmentedDavDir segs (i + 1 + j))) = true := by
        intro j hj
        have := hprev (j + 1) (by omega)
        rwa [show i + (j + 1) = i + 1 + j by omega] at this
      have hs' : store (segmentedDavDir segs (i + 1 + k)) = .err s := by
        rwa [show i + (k + 1) = i + 1 + k by omega] at hs
      rw [bootstrapLoop]
      rcases hst : store (segmentedDavDir segs i) with es | s2
      · show bootstrapLoop store segs (i + 1) left' (some es)
          (listed ++ [segmentedDavDir segs i]) created = _
        rw [ih left' (i + 1) (some es) _ _ s (by omega) hprev' hs' h404 h401]
        simp [List.range'_succ]
      · rw [hst] at h0
        simp [okOr404] at h0
        subst h0
        show bootstrapLoop store segs (i + 1) left' contents
          (listed ++ [segmentedDavDir segs i]) (created ++ [segmentedDavDir segs i]) = _
        rw [ih left' (i + 1) contents _ _ s (by omega) hprev' hs' h404 h401]
        simp [List.range'_succ]

/-! ## Claim about the bootstrapper -/

/-- C8 (amended): for a target of `n` segments the bootstrapper attempts a
listing at every depth `0` to `n` inclusive when it finishes normally,
creating exactly the directories whose listing failed with not-found; a 401
at any depth (shallower depths fulfilled or absorbed) exits the process
immediately with the deeper depths never attempted; any other listing error
is rethrown likewise; and the listing handed to the Retention Pruner is the
*most recent successful* listing — the full target path's listing when the
final listing succeeded, but possibly a shallower one (or none) when it
failed with not-found. -/
theorem claim_C8 :
    (∀ (store : String → ListResult) (davDir : String) (c : Option (List DavEntry))
       (lst cr : List String),
        bootstrap store davDir = .done c lst cr →
        lst = (List.range ((davDirSegments davDir).length + 1)).map
            (segmentedDavDir (davDirSegments davDir))
        ∧ c = foldContents store none lst
        ∧ cr = lst.filter (fun d => is404 (store d))
        ∧ (∀ es, store (segmentedDavDir (davDirSegments davDir)
              (davDirSegments davDir).length) = .ok es → c = some es))
    ∧ (∀ (store : String → ListResult) (davDir : String) (k : Nat),
        k ≤ (davDirSegments davDir).length →
        (∀ j, j < k → okOr404 (store (segmentedDavDir (davDirSegments davDir) j)) = true) →
        store (segmentedDavDir (davDirSegments davDir) k) = .err (some 401) →
        bootstrap store davDir = .exitWrongCredentials
          ((List.range (k + 1)).map (segmentedDavDir (davDirSegments davDir))))
    ∧ (∀ (store : String → ListResult) (davDir : String) (k : Nat) (s : Option Nat),
        k ≤ (davDirSegments davDir).length →
        (∀ j, j < k → okOr404 (store (segmentedDavDir (davDirSegments davDir) j)) = true) →
        store (segmentedDavDir (davDirSegments davDir) k) = .err s →
        s ≠ some 404 → s ≠ some 401 →
        bootstrap store davDir = .thrown s
          ((List.range (k + 1)).map (segmentedDavDir (davDirSegments davDir)))) := by
  refine ⟨?_, ?_, ?_⟩
  · intro store davDir c lst cr h
    simp only [bootstrap] at h
    obtain ⟨h1, h2, h3⟩ := bootstrapLoop_done store (davDirSegments davDir)
      (davDirSegments davDir).length 0 none [] [] c lst cr h
    subst h1; subst h2; subst h3
    refine ⟨by simp [List.range_eq_range'], by simp, by simp, ?_⟩
    intro es hok
    rw [List.range'_concat]
    simp [foldContents, List.foldl_append, hok]
  · intro store davDir k hk hprev hs
    simp only [bootstrap]
    rw [bootstrapLoop_401 store (davDirSegments davDir) k (davDirSegments davDir).length 0
      none [] [] hk (by intro j hj; simpa using hprev j hj) (by simpa using hs)]
    simp [List.range_eq_range']
  · intro store davDir k s hk hprev hs h404 h401
    simp only [bootstrap]
    rw [bootstrapLoop_thrown store (davDirSegments davDir) k (davDirSegments davDir).length 0
      none [] [] s hk (by intro j hj; simpa using hprev j hj) (by simpa using hs) h404 h401]
    simp [List.range_eq_range']

/-- A file sitting in the remote root, listed by the only successful
listing of the C8 counterexample run. -/
def c8entry : DavEntry := ⟨"file", 0, "/old.txt", "old.txt"⟩

/-- Remote store of the C8 counterexample: the root lists fine, every other
path (in particular the full target `/backup`) is not found. -/
def c8store : String → ListResult :=
  fun d => if d = "/" then .ok [c8entry] else .err (some 404)

/-- Counterexample to C8 as stated: the final iteration's listing of the
full target path `/backup` fails with not-found (the directory is created
instead), so the loop finishes with `davDirContents` still holding the
*root's* listing — the pruner consumes the listing of a shallower path, not
"the final iteration's successful listing of the full target path". -/
theorem claim_C8_counterexample :
    bootstrap c8store "/backup" = .done (some [c8entry]) ["/", "/backup"] ["/backup"]
    ∧ c8store "/backup" = .err (some 404) := by
  refine ⟨by decide, by decide⟩

/-- A store whose every listing is rejected with status 401. -/
def w8store : String → ListResult := fun _ => .err (some 401)

/-- Witness for the amended C8: invalid credentials at depth 0 abort the
bootstrap immediately, only the root having been attempted. -/
theorem claim_C8_witness :
    bootstrap w8store "/backup" = .exitWrongCredentials ["/"] := by
  have h := claim_C8.2.1 w8store "/backup" 0 (by decide)
    (by intro j hj; omega) (by decide)
  exact h.trans (by decide)

/-! ## Lemmas about the filename encoding -/

/-- The literal tag the kind group contributes to a database filename. -/
def kindTag : DbKind → List Char
  | .mysql => "mysql-".data
  | .mongo => "mongo-".data

theorem isDateChars_shape (cs : List Char) (h : isDateChars cs = true) :
    cs.length = 10 ∧ ∃ a tl, cs = a :: tl ∧ a.isDigit = true := by
  unfold isDateChars at h
  split at h
  · simp only [Bool.and_eq_true] at h
    exact ⟨rfl, _, _, rfl, h.1.1.1.1.1.1.1⟩
  · exact absurd h (by simp)

theorem isTimeChars_length (cs : List Char) (h : isTimeChars cs = true) :
    cs.length = 12 := by
  unfold isTimeChars at h
  split at h
  · rfl
  · exact absurd h (by simp)

theorem isExtChars_length (cs : List Char) (h : isExtChars cs = true) :
    cs.length = 4 ∨ cs.length = 7 := by
  unfold isExtChars at h
  simp only [Bool.or_eq_true, decide_eq_true_eq] at h
  rcases h with ((((h | h) | h) | h) | h) <;> subst h <;> simp

/-- A digit character is not the letter `m` (heads of date captures cannot
open a `mysql-`/`mongo-` literal). -/
theorem digit_ne_m (a : Char) (h : a.isDigit = true) : a ≠ 'm' := by
  intro heq
  subst heq
  simp [Char.isDigit] at h

theorem parseDTE_build (d t e : List Char) (hd : isDateChars d = true)
    (ht : isTimeChars t = true) (he : isExtChars e = true) :
    parseDTE (d ++ '_' :: (t ++ e)) = some (d, t) := by
  have hd10 : d.length = 10 := (isDateChars_shape d hd).1
  have ht12 : t.length = 12 := isTimeChars_length t ht
  unfold parseDTE
  rw [List.take_left' hd10, List.drop_left' hd10]
  simp [List.take_left' ht12, List.drop_left' ht12, hd, ht, he]

theorem parseDTE_sound (cs : List Char) (d t : List Char)
    (h : parseDTE cs = some (d, t)) :
    isDateChars d = true ∧ isTimeChars t = true ∧
    ∃ e, isExtChars e = true ∧ cs = d ++ '_' :: (t ++ e) := by
  unfold parseDTE at h
  split at h
  · next rest heq =>
    split at h
    · next hcond =>
      simp only [Option.some.injEq, Prod.mk.injEq] at h
      obtain ⟨hd, ht⟩ := h
      simp only [Bool.and_eq_true] at hcond
      obtain ⟨⟨hdate, htime⟩, hext⟩ := hcond
      subst hd; subst ht
      refine ⟨hdate, htime, rest.drop 12, hext, ?_⟩
      conv_lhs => rw [← List.take_append_drop 10 cs]
      rw [heq]
      simp
    · exact absurd h (by simp)
  · exact absurd h (by simp)

theorem parseDTE_length (cs : List Char) (p : List Char × List Char)
    (h : parseDTE cs = some p) : cs.length = 27 ∨ cs.length = 30 := by
  obtain ⟨pd, pt⟩ := p
  obtain ⟨hd, ht, e, he, hcs⟩ := parseDTE_sound cs pd pt h
  have hd10 : pd.length = 10 := (isDateChars_shape _ hd).1
  have ht12 : pt.length = 12 := isTimeChars_length _ ht
  have hel := isExtChars_length e he
  subst hcs
  simp [hd10, ht12]
  omega

/-- The lazy scan finds the producer's split: for any non-empty target free
of line terminators, scanning `target ++ '_' :: date ++ '_' :: time ++
".sql.gz"` yields exactly the date and time the producer embedded — every
earlier split fails because the remainder is too long to be a date, time and
extension. -/
theorem parseTargetRest_build (d t : List Char) (hd : isDateChars d = true)
    (ht : isTimeChars t = true) :
    ∀ db : List Char, db ≠ [] → db.all isDotChar = true →
    parseTargetRest (db ++ '_' :: (d ++ '_' :: (t ++ ".sql.gz".data))) = some (d, t) := by
  have hd10 : d.length = 10 := (isDateChars_shape d hd).1
  have ht12 : t.length = 12 := isTimeChars_length t ht
  intro db
  induction db with
  | nil => intro h _; exact absurd rfl h
  | cons c db ih =>
    intro _ hall
    simp only [List.all_cons, Bool.and_eq_true] at hall
    obtain ⟨hc, halldb⟩ := hall
    rcases db with _ | ⟨c2, db2⟩
    · show parseTargetRest (c :: '_' :: (d ++ '_' :: (t ++ ".sql.gz".data))) = some (d, t)
      rw [parseTargetRest.eq_2, if_pos hc,
        parseDTE_build d t ".sql.gz".data hd ht (by decide)]
    · have hrec := ih (by simp) halldb
      by_cases hc2 : c2 = '_'
      · subst hc2
        show parseTargetRest
          (c :: '_' :: (db2 ++ '_' :: (d ++ '_' :: (t ++ ".sql.gz".data)))) = some (d, t)
        rw [parseTargetRest.eq_2, if_pos hc]
        have hext7 : (".sql.gz".data).length = 7 := rfl
        have hlong : parseDTE (db2 ++ '_' :: (d ++ '_' :: (t ++ ".sql.gz".data))) = none := by
          rcases hp : parseDTE (db2 ++ '_' :: (d ++ '_' :: (t ++ ".sql.gz".data))) with _ | p
          · rfl
          · have hlen := parseDTE_length _ p hp
            simp [hd10, ht12, hext7] at hlen
        rw [hlong]
        exact hrec
      · show parseTargetRest
          (c :: (c2 :: db2 ++ '_' :: (d ++ '_' :: (t ++ ".sql.gz".data)))) = some (d, t)
        rw [parseTargetRest.eq_3 c _
          (by intro r hr; injection hr with h1 _; exact hc2 h1), if_pos hc]
        exact hrec

/-- Soundness of the lazy scan: a successful scan decomposes its input as a
non-empty line-terminator-free target, an underscore, and a date/time/
extension suffix. -/
theorem parseTargetRest_sound (cs : List Char) (d t : List Char)
    (h : parseTargetRest cs = some (d, t)) :
    ∃ target rest2, cs = target ++ '_' :: rest2 ∧ target ≠ [] ∧
      target.all isDotChar = true ∧ parseDTE rest2 = some (d, t) := by
  induction cs with
  | nil => simp [parseTargetRest] at h
  | cons c rest ih =>
    rcases rest with _ | ⟨c2, rest2⟩
    · rw [parseTargetRest.eq_3 c [] (by intro r hr; cases hr)] at h
      by_cases hc : isDotChar c
      · rw [if_pos hc, parseTargetRest.eq_1] at h; cases h
      · rw [if_neg hc] at h; cases h
    · by_cases hc2 : c2 = '_'
      · subst hc2
        rw [parseTargetRest.eq_2] at h
        by_cases hc : isDotChar c
        · rw [if_pos hc] at h
          rcases hdte : parseDTE rest2 with _ | ⟨dd, tt⟩
          · rw [hdte] at h
            simp only [] at h
            obtain ⟨target, rest2x, hcs, hne, hall, hp⟩ := ih h
            exact ⟨c :: target, rest2x, by simp [hcs], by simp, by simp [hc, hall], hp⟩
          · rw [hdte] at h
            simp only [Option.some.injEq, Prod.mk.injEq] at h
            obtain ⟨h1, h2⟩ := h
            subst h1; subst h2
            exact ⟨[c], rest2, rfl, by simp, by simp [hc], hdte⟩
        · rw [if_neg hc] at h; cases h
      · rw [parseTargetRest.eq_3 c _
          (by intro r hr; injection hr with h1 _; exact hc2 h1)] at h
        by_cases hc : isDotChar c
        · rw [if_pos hc] at h
          obtain ⟨target, rest2x, hcs, hne, hall, hp⟩ := ih h
          exact ⟨c :: target, rest2x, by simp [hcs], by simp, by simp [hc, hall], hp⟩
        · rw [if_neg hc] at h; cases h

/-- Stripping a literal off its own extension succeeds with the remainder. -/
theorem stripLit_self (pre rest : List Char) : stripLit pre (pre ++ rest) = some rest := by
  simp [stripLit, List.take_left, List.drop_left]

/-- Soundness of literal stripping. -/
theorem stripLit_sound (pre cs rest : List Char) (h : stripLit pre cs = some rest) :
    cs = pre ++ rest := by
  unfold stripLit at h
  split at h
  · next hc =>
    simp only [Option.some.injEq] at h
    rw [← List.take_append_drop pre.length cs, hc, h]
  · exact absurd h (by simp)

/-- A literal with a different head never strips. -/
theorem stripLit_none_head (p : Char) (ps : List Char) (c : Char) (cs : List Char)
    (h : c ≠ p) : stripLit (p :: ps) (c :: cs) = none := by
  simp [stripLit, h]

/-- A literal never strips off a same-length different literal. -/
theorem stripLit_none_ne (p q rest : List Char) (hlen : q.length = p.length)
    (hne : q ≠ p) : stripLit p (q ++ rest) = none := by
  simp [stripLit, List.take_left' hlen, hne]

/-- A directory-archive filename matches with no kind group and the embedded
date and time recovered. -/
theorem backupFilenameMatch_tar (name : String) (d t : List Char)
    (hd : isDateChars d = true) (ht : isTimeChars t = true) :
    backupFilenameMatch name (tarBackupFilename name d t) = some (none, d, t) := by
  obtain ⟨hd10, a, dtl, hdeq, hadig⟩ := isDateChars_shape d hd
  have hdata : (tarBackupFilename name d t).data
      = ("backup-" ++ name ++ "_").data ++ (d ++ '_' :: (t ++ ".tgz".data)) := by
    simp [tarBackupFilename, String.data_append]
  have hmy : stripLit "mysql-".data (d ++ '_' :: (t ++ ".tgz".data)) = none := by
    rw [hdeq]
    show stripLit ('m' :: "ysql-".data) (a :: (dtl ++ '_' :: (t ++ ".tgz".data))) = none
    exact stripLit_none_head _ _ _ _ (digit_ne_m a hadig)
  have hmo : stripLit "mongo-".data (d ++ '_' :: (t ++ ".tgz".data)) = none := by
    rw [hdeq]
    show stripLit ('m' :: "ongo-".data) (a :: (dtl ++ '_' :: (t ++ ".tgz".data))) = none
    exact stripLit_none_head _ _ _ _ (digit_ne_m a hadig)
  simp only [backupFilenameMatch, hdata, stripLit_self, hmy, hmo]
  rw [parseDTE_build d t ".tgz".data hd ht (by decide)]
  rfl

/-- A relational-dump filename matches with the `mysql` kind recovered and
the embedded date and time recovered, for any database name free of line
terminators. -/
theorem backupFilenameMatch_mysql (name mysqlDb : String) (d t : List Char)
    (hne : mysqlDb.data ≠ []) (hall : mysqlDb.data.all isDotChar = true)
    (hd : isDateChars d = true) (ht : isTimeChars t = true) :
    backupFilenameMatch name (mysqlBackupFilename name mysqlDb d t)
      = some (some .mysql, d, t) := by
  have hdata : (mysqlBackupFilename name mysqlDb d t).data
      = ("backup-" ++ name ++ "_").data ++
        ("mysql-".data ++ (mysqlDb.data ++ '_' :: (d ++ '_' :: (t ++ ".sql.gz".data)))) := by
    simp [mysqlBackupFilename, String.data_append]
  simp only [backupFilenameMatch, hdata, stripLit_self]
  rw [parseTargetRest_build d t hd ht mysqlDb.data hne hall]

/-- A document-dump filename matches with the `mongo` kind recovered and the
embedded date and time recovered. -/
theorem backupFilenameMatch_mongo (name mongoDb : String) (d t : List Char)
    (hne : mongoDb.data ≠ []) (hall : mongoDb.data.all isDotChar = true)
    (hd : isDateChars d = true) (ht : isTimeChars t = true) :
    backupFilenameMatch name (mongoBackupFilename name mongoDb d t)
      = some (some .mongo, d, t) := by
  have hdata : (mongoBackupFilename name mongoDb d t).data
      = ("backup-" ++ name ++ "_").data ++
        ("mongo-".data ++ (mongoDb.data ++ '_' :: (d ++ '_' :: (t ++ ".sql.gz".data)))) := by
    simp [mongoBackupFilename, String.data_append]
  have hmy : stripLit "mysql-".data
      ("mongo-".data ++ (mongoDb.data ++ '_' :: (d ++ '_' :: (t ++ ".sql.gz".data)))) = none :=
    stripLit_none_ne _ _ _ (by decide) (by decide)
  simp only [backupFilenameMatch, hdata, stripLit_self, hmy]
  rw [parseTargetRest_build d t hd ht mongoDb.data hne hall]

/-- Completeness of the encoding: every string the matcher accepts
decomposes as `backup-<name>_` followed by an optional `mysql-`/`mongo-`
kind tag with a non-empty target and underscore, the captured date, an
underscore, the captured time, and one of the allowed extensions — no
remote object name outside this encoding matches. -/
theorem backupFilenameMatch_sound (name s : String) (k : Option DbKind) (d t : List Char)
    (h : backupFilenameMatch name s = some (k, d, t)) :
    isDateChars d = true ∧ isTimeChars t = true ∧
    ∃ mid ext, isExtChars ext = true ∧
      s.data = ("backup-" ++ name ++ "_").data ++ (mid ++ (d ++ '_' :: (t ++ ext))) ∧
      ((k = none ∧ mid = []) ∨
        ∃ kd target, k = some kd ∧ target ≠ [] ∧ target.all isDotChar = true ∧
          mid = kindTag kd ++ (target ++ ['_'])) := by
  unfold backupFilenameMatch at h
  split at h
  · simp at h
  · next tail heq1 =>
    have hs1 : s.data = ("backup-" ++ name ++ "_").data ++ tail :=
      stripLit_sound _ _ _ heq1
    split at h
    · next rest heq2 =>
      have ht1 : tail = "mysql-".data ++ rest := stripLit_sound _ _ _ heq2
      split at h
      · next d0 t0 heq3 =>
        simp only [Option.some.injEq, Prod.mk.injEq] at h
        obtain ⟨hk, hd0, ht0⟩ := h
        rw [hd0, ht0] at heq3
        obtain ⟨target, rest2, hrest, htne, htall, hp⟩ := parseTargetRest_sound rest d t heq3
        obtain ⟨hdate, htime, ext, hext, hrest2⟩ := parseDTE_sound rest2 d t hp
        refine ⟨hdate, htime, "mysql-".data ++ (target ++ ['_']), ext, hext, ?_, ?_⟩
        · rw [hs1, ht1, hrest, hrest2]
          simp
        · exact Or.inr ⟨.mysql, target, hk.symm, htne, htall, rfl⟩
      · next heq3 =>
        rcases hp : parseDTE tail with _ | ⟨dd, tt⟩ <;> rw [hp] at h
        · simp at h
        · simp only [Option.map_some', Option.some.injEq, Prod.mk.injEq] at h
          obtain ⟨hk, hd0, ht0⟩ := h
          rw [hd0, ht0] at hp
          obtain ⟨hdate, htime, ext, hext, htail⟩ := parseDTE_sound tail d t hp
          exact ⟨hdate, htime, [], ext, hext, by rw [hs1, htail]; simp,
            Or.inl ⟨hk.symm, rfl⟩⟩
    · split at h
      · next rest heq2 =>
        have ht1 : tail = "mongo-".data ++ rest := stripLit_sound _ _ _ heq2
        split at h
        · next d0 t0 heq3 =>
          simp only [Option.some.injEq, Prod.mk.injEq] at h
          obtain ⟨hk, hd0, ht0⟩ := h
          rw [hd0, ht0] at heq3
          obtain ⟨target, rest2, hrest, htne, htall, hp⟩ := parseTargetRest_sound rest d t heq3
          obtain ⟨hdate, htime, ext, hext, hrest2⟩ := parseDTE_sound rest2 d t hp
          refine ⟨hdate, htime, "mongo-".data ++ (target ++ ['_']), ext, hext, ?_, ?_⟩
          · rw [hs1, ht1, hrest, hrest2]
            simp
          · exact Or.inr ⟨.mongo, target, hk.symm, htne, htall, rfl⟩
        · next heq3 =>
          rcases hp : parseDTE tail with _ | ⟨dd, tt⟩ <;> rw [hp] at h
          · simp at h
          · simp only [Option.map_some', Option.some.injEq, Prod.mk.injEq] at h
            obtain ⟨hk, hd0, ht0⟩ := h
            rw [hd0, ht0] at hp
            obtain ⟨hdate, htime, ext, hext, htail⟩ := parseDTE_sound tail d t hp
            exact ⟨hdate, htime, [], ext, hext, by rw [hs1, htail]; simp,
              Or.inl ⟨hk.symm, rfl⟩⟩
      · rcases hp : parseDTE tail with _ | ⟨dd, tt⟩ <;> rw [hp] at h
        · simp at h
        · simp only [Option.map_some', Option.some.injEq, Prod.mk.injEq] at h
          obtain ⟨hk, hd0, ht0⟩ := h
          rw [hd0, ht0] at hp
          obtain ⟨hdate, htime, ext, hext, htail⟩ := parseDTE_sound tail d t hp
          exact ⟨hdate, htime, [], ext, hext, by rw [hs1, htail]; simp,
            Or.inl ⟨hk.symm, rfl⟩⟩

/-- C5: every filename the three artifact producers generate for a run name
matches `BACKUP_FILENAME_REGEXP` for that name — the directory archive with
no kind group, the relational dump with the `mysql` kind, the document dump
with the `mongo` kind, each recovering the embedded date and time — and,
conversely, every string the matcher accepts is of the backup-filename
encoding (optional kind tag with non-empty target, date, time, allowed
extension): no remote object name outside the encoding matches. Timestamps
range over the `YYYY-MM-DD` / `HH-mm-ss-SSS` shapes `moment` produces, and
database names over non-empty strings free of line terminators. -/
theorem claim_C5 :
    (∀ (name : String) (d t : List Char), isDateChars d = true → isTimeChars t = true →
        backupFilenameMatch name (tarBackupFilename name d t) = some (none, d, t))
    ∧ (∀ (name mysqlDb : String) (d t : List Char),
        mysqlDb.data ≠ [] → mysqlDb.data.all isDotChar = true →
        isDateChars d = true → isTimeChars t = true →
        backupFilenameMatch name (mysqlBackupFilename name mysqlDb d t)
          = some (some .mysql, d, t))
    ∧ (∀ (name mongoDb : String) (d t : List Char),
        mongoDb.data ≠ [] → mongoDb.data.all isDotChar = true →
        isDateChars d = true → isTimeChars t = true →
        backupFilenameMatch name (mongoBackupFilename name mongoDb d t)
          = some (some .mongo, d, t))
    ∧ (∀ (name s : String) (k : Option DbKind) (d t : List Char),
        backupFilenameMatch name s = some (k, d, t) →
        isDateChars d = true ∧ isTimeChars t = true ∧
        ∃ mid ext, isExtChars ext = true ∧
          s.data = ("backup-" ++ name ++ "_").data ++ (mid ++ (d ++ '_' :: (t ++ ext))) ∧
          ((k = none ∧ mid = []) ∨
            ∃ kd target, k = some kd ∧ target ≠ [] ∧ target.all isDotChar = true ∧
              mid = kindTag kd ++ (target ++ ['_']))) := by
  refine ⟨?_, ?_, ?_, ?_⟩
  · intro name d t hd ht
    exact backupFilenameMatch_tar name d t hd ht
  · intro name mysqlDb d t hne hall hd ht
    exact backupFilenameMatch_mysql name mysqlDb d t hne hall hd ht
  · intro name mongoDb d t hne hall hd ht
    exact backupFilenameMatch_mongo name mongoDb d t hne hall hd ht
  · intro name s k d t h
    exact backupFilenameMatch_sound name s k d t h

/-- Witness for C5: the relational-dump filename for run `nightly` and
database `mydb` at a concrete timestamp matches with kind `mysql` and the
timestamp recovered. -/
theorem claim_C5_witness :
    backupFilenameMatch "nightly"
        (mysqlBackupFilename "nightly" "mydb" "2024-01-01".data "00-00-00-000".data)
      = some (some .mysql, "2024-01-01".data, "00-00-00-000".data) :=
  claim_C5.2.1 "nightly" "mydb" "2024-01-01".data "00-00-00-000".data
    (by decide) (by decide) (by decide) (by decide)

end DavBackup
